import Mathlib

/-!
Verification of the golem-herder broker, ledger, token and daemon
components.

The Go sources are shallowly embedded: Go maps (and boltdb buckets) become
association lists over `String` keys, fallible functions return `Except`
or explicit result pairs, and machine `int` becomes `Int`.  Values that
boltdb stores as decimal strings (written with `strconv.Itoa` and read
back with `strconv.Atoi`, which is a total inverse on `Itoa` images) are
identified with their integer denotations; the `Atoi` failure branches of
`metering/meter.go` are dead for every value this code writes and are
therefore elided.  Definitions come first, all theorems follow.
-/

namespace Herder

/-! ## Association lists: the embedding of Go maps and bolt buckets -/

/-- Lookup in an association list, first binding wins (Go map lookup
`m[k]`, or bolt `bucket.Get(k)`). -/
def lookupA {α : Type} (k : String) : List (String × α) → Option α
  | [] => none
  | (k', v) :: rest => if k' = k then some v else lookupA k rest

/-- Insert-or-overwrite in an association list (Go map assignment
`m[k] = v`, or bolt `bucket.Put(k, v)`). -/
def putA {α : Type} (k : String) (v : α) : List (String × α) → List (String × α)
  | [] => [(k, v)]
  | (k', v') :: rest => if k' = k then (k, v) :: rest else (k', v') :: putA k v rest

/-- Key removal (Go `delete(m, k)`). -/
def delA {α : Type} (k : String) (l : List (String × α)) : List (String × α) :=
  l.filter (fun p => ¬ p.1 = k)

/-- Number of bindings an association list holds for a key. -/
def countKey {α : Type} (k : String) (l : List (String × α)) : Nat :=
  (l.filter (fun p => p.1 = k)).length

end Herder

namespace Metering

open Herder

/-- A subject's bucket in the bolt store `meter.db`
(`metering/meter.go`, comment on `NewMeter`): a scalar value under key
`"Credits"` (absent until the first top-up writes it) and a nested
`"Tokens"` bucket mapping a token id to its expiry. -/
structure Bucket where
  credits : Option Int
  tokens : List (String × Int)
deriving Repr, DecidableEq

/-- The bolt store: one top-level bucket per subject id. -/
def Store := List (String × Bucket)

/-- `metering.NewMeter(id, token, expiration, credits)` (meter.go:32-70),
the ledger top-up, restricted to its store effect:
create the subject bucket and its `Tokens` child if absent; if `token` is
unseen, record it and add `credits` to the `Credits` value (initialising
the value to `credits` when it is absent); otherwise change nothing. -/
def NewMeter (id token : String) (expiration credits : Int) (st : Store) : Store :=
  -- tx.CreateBucketIfNotExists(id); b.CreateBucketIfNotExists("Tokens")
  let st₁ : Store := match lookupA id st with
    | some _ => st
    | none => putA id ⟨none, []⟩ st
  let b : Bucket := (lookupA id st₁).getD ⟨none, []⟩
  -- if t := tokens.Get(token); t == nil
  match lookupA token b.tokens with
  | some _ => st₁
  | none =>
    let newCredits : Int := match b.credits with
      | some balance => balance + credits
      | none => credits
    putA id ⟨some newCredits, putA token expiration b.tokens⟩ st₁

/-- `Meter.readIntegers(keys...)` (meter.go:95-118): open a read
transaction, fail when the subject bucket is absent, otherwise decode each
requested key, defaulting to `0` when the key is unset.  The only integer
key this code ever stores or reads is `"Credits"`. -/
def readIntegers (id : String) (keys : List String) (st : Store) :
    Except String (List Int) :=
  match lookupA id st with
  | none => .error "Could not find bucket"
  | some b => .ok (keys.map fun k => if k = "Credits" then b.credits.getD 0 else 0)

/-- `Meter.Credits()` (meter.go:84-93): `readIntegers("Credits")`, then
require exactly one result. -/
def Credits (id : String) (st : Store) : Except String Int :=
  match readIntegers id ["Credits"] st with
  | .error e => .error e
  | .ok [c] => .ok c
  | .ok _ => .error "Unexpected amount of ints returned from db"

/-- `Meter.Record(credits)` (meter.go:121-150), the ledger debit: fail when
the subject bucket is absent; read the remaining balance (`0` when the
`Credits` key is unset); refuse with the no-credits error when it is
`≤ 0`; otherwise store `remaining - credits`. -/
def Record (id : String) (credits : Int) (st : Store) : Except String Store :=
  match lookupA id st with
  | none => .error "Could not update for given id"
  | some b =>
    let remaining := b.credits.getD 0
    if remaining ≤ 0 then .error "Could not record time - no credits left"
    else .ok (putA id { b with credits := some (remaining - credits) } st)

end Metering

namespace Minion

open Herder

/-- `minion.ConnectEvent` (minion.go:58-63). -/
structure ConnectEvent where
  event : String
  id : String
  type : String
deriving Repr, DecidableEq

/-- `minion.NewGolemNotFound` (minion.go:72-76). -/
def NewGolemNotFound (id : String) : ConnectEvent :=
  ⟨"golem-not-found", id, ""⟩

/-- `minion.NewMinionConnected` (minion.go:79-84). -/
def NewMinionConnected (id t : String) : ConnectEvent :=
  ⟨"minion-connected", id, t⟩

/-- `minion.NewMinionDisconnected` (minion.go:87-91). -/
def NewMinionDisconnected (id : String) : ConnectEvent :=
  ⟨"minion-disconnected", id, ""⟩

/-- Go `json.Marshal` restricted to `ConnectEvent`, a struct of three
plain strings whose `ID` and `Type` fields carry `json:",omitempty"`:
serialisation always succeeds, so the error component is `none` (string
escaping of the payloads is elided). -/
def jsonMarshalConnectEvent (e : ConnectEvent) : String × Option String :=
  ("\x7b\"Event\":\"" ++ e.event ++ "\""
    ++ (if e.id = "" then "" else ",\"ID\":\"" ++ e.id ++ "\"")
    ++ (if e.type = "" then "" else ",\"Type\":\"" ++ e.type ++ "\"")
    ++ "\x7d", none)

/-- The pause between two reads of `golems[webstrate]` in the golem-wait
loop of `ConnectHandler` (minion.go:245): 200 milliseconds. -/
def pollIntervalMs : Nat := 200

/-- The golem-wait loop of `ConnectHandler` (minion.go:236-246): re-read
`golems[webstrate]` until a golem is found or the iteration budget is
spent; `sched i` is the registry content at the `i`-th poll. -/
def pollFrom (sched : Nat → Option Nat) : Nat → Nat → Option Nat
  | _, 0 => none
  | i, fuel + 1 =>
    match sched i with
    | some g => some g
    | none => pollFrom sched (i + 1) fuel

/-- The full wait: 100 polls starting at poll 0 (minion.go:236). -/
def pollForGolem (sched : Nat → Option Nat) : Option Nat :=
  pollFrom sched 0 100

/-- An observable action the connect handler performs on its upgraded
socket / response writer. -/
inductive SocketAction where
  | writeText (payload : String)
  | httpError (msg : String) (code : Nat)
  | close
deriving Repr, DecidableEq

/-- The giving-up branch of `ConnectHandler` (minion.go:247-258), reached
when no golem appeared within the polling budget.  The source guards the
`WriteMessage` call with `err != nil` — the frame is written only when
`json.Marshal` failed — then reports 404 and closes the socket (a deferred
handler then drops the session from `minions[webstrate]`). -/
def golemNotFoundActions (webstrate : String) : List SocketAction :=
  let m := jsonMarshalConnectEvent (NewGolemNotFound webstrate)
  (if m.2.isSome then [SocketAction.writeText m.1] else [])
    ++ [SocketAction.httpError "No golem found" 404, SocketAction.close]

/-- The broker's golem registry `golems : map[string]*Golem`
(minion.go:24); a golem socket is identified by an abstract tag. -/
def GolemRegistry := List (String × Nat)

/-- Outcome of a golem connect attempt. -/
inductive ConnectResult where
  | registered
  | conflict409
deriving Repr, DecidableEq

/-- The registration step of `GolemConnectHandler` (minion.go:320-335):
under the hub mutex, refuse with 409 Conflict when `golems[webstrate]` is
already present, otherwise insert the fresh socket. -/
def golemConnect (webstrate : String) (sock : Nat) (reg : GolemRegistry) :
    ConnectResult × GolemRegistry :=
  match lookupA webstrate reg with
  | some _ => (ConnectResult.conflict409, reg)
  | none => (ConnectResult.registered, putA webstrate sock reg)

/-- A registry mutation of the golem handler: a connect attempt
(minion.go:320-335) or one of the deferred / writer-task removals
(minion.go:337-341 and 364-366). -/
inductive BrokerEvent where
  | connect (webstrate : String) (sock : Nat)
  | disconnect (webstrate : String)

/-- One registry mutation. -/
def brokerStep (reg : GolemRegistry) : BrokerEvent → GolemRegistry
  | BrokerEvent.connect w s => (golemConnect w s reg).2
  | BrokerEvent.disconnect w => delA w reg

/-- Registry reached from the empty broker after a sequence of golem
connect/disconnect events. -/
def runBroker (es : List BrokerEvent) : GolemRegistry :=
  es.foldl brokerStep []

/-- Go `path/filepath.Ext`, scanning the path backwards: the suffix of the
last path element starting at its final dot, empty when there is none. -/
def filepathExtAux : List Char → List Char → List Char
  | [], _ => []
  | c :: cs, acc =>
    if c = '/' then []
    else if c = '.' then c :: acc
    else filepathExtAux cs (c :: acc)

/-- Go `path/filepath.Ext` on a full path. -/
def filepathExt (path : String) : String :=
  ⟨filepathExtAux path.data.reverse []⟩

/-- Go `filepath.Join(dir, name)` for a clean directory and a relative
file name: concatenation with a single separator (path cleaning elided). -/
def filepathJoin (dir name : String) : String := dir ++ "/" ++ name

/-- `minion.Output` (minion.go:66-69) serialised by `defaultOutput`
(minion.go:157-160): the JSON object with `StdOut` and, unless empty,
`StdErr` (string escaping of the payloads is elided). -/
def defaultOutput (stdout stderr : String) : String :=
  "\x7b\"StdOut\":\"" ++ stdout ++ "\""
    ++ (if stderr = "" then "" else ",\"StdErr\":\"" ++ stderr ++ "\"") ++ "\x7d"

/-- The result assembly of `minion.Spawn` (minion.go:130-155), after the
lambda container ran producing `stdout`/`stderr`: `readFile` stands for
`ioutil.ReadFile` rooted in the invocation's temp dir `dir`, `mimeOf` for
Go `mime.TypeByExtension`. -/
def spawnResult (dir output stdout stderr : String)
    (readFile : String → Except String String) (mimeOf : String → String) :
    String × String :=
  let o := defaultOutput stdout stderr
  if output = "" ∨ output = "stdout" then (o, "application/json")
  else
    match readFile (filepathJoin dir output) with
    | Except.error _ => (o, "application/json")
    | Except.ok fileContent =>
      (fileContent, mimeOf (filepathExt (filepathJoin dir output)))

end Minion

namespace Token

open Herder

/-- The signing-method family declared by a JWT header, as discriminated by
the `t.Method.(*jwt.SigningMethodRSA)` type assertion in `Validate`
(token.go:72): `RSA` covers RS256/RS384/RS512; every other family
(HMAC, ECDSA, RSAPSS, none) fails the assertion. -/
inductive MethodFamily where
  | RSA
  | HMAC
  | ECDSA
  | RSAPSS
  | noSig
deriving Repr, DecidableEq

/-- Abstraction of a JWT string as the external `jwt-go` library sees it:
its declared method family, whether its signature verifies under a given
RSA public key (keys are abstract tags), and whether its claims are
internally valid. -/
structure TokenData where
  method : MethodFamily
  sigOkUnder : Nat → Bool
  claimsValid : Bool

/-- Result of the external `jwt.ParseWithClaims`: a possibly-nil token
with its `Valid` flag, and a possibly-nil error. -/
structure ParseResult where
  token : Option (TokenData × Bool)
  err : Option String

/-- Contract of the external `jwt.ParseWithClaims` (the token-signing
library is outside this repository): consult the keyfunc, keeping its
error and a non-valid token when it refuses; otherwise verify the
signature under the returned key and validate the claims, setting
`Valid` and clearing the error exactly when both hold. -/
def jwtParseWithClaims (tok : TokenData)
    (keyfunc : TokenData → Except String Nat) : ParseResult :=
  match keyfunc tok with
  | Except.error e => ⟨some (tok, false), some e⟩
  | Except.ok key =>
    if tok.sigOkUnder key && tok.claimsValid then ⟨some (tok, true), none⟩
    else ⟨some (tok, false), some "signature or claims invalid"⟩

/-- `Manager.Validate` (token.go:70-83): parse with a keyfunc that rejects
any signing method outside the RSA family, then return the token when
`err == nil && jwtToken.Valid`, and `(nil, err)` otherwise. -/
def Validate (pubKey : Nat) (tok : TokenData) : Option TokenData × Option String :=
  let r := jwtParseWithClaims tok fun t =>
    match t.method with
    | MethodFamily.RSA => Except.ok pubKey
    | _ => Except.error "Invalid token"
  match r.err, r.token with
  | none, some (t, true) => (some t, none)
  | e, _ => (none, e)

/-- A JWT claim value: `jwt.MapClaims` maps claim names to JSON values,
and only strings and integers occur in this code. -/
inductive ClaimVal where
  | str (s : String)
  | int (n : Int)
deriving Repr, DecidableEq

/-- The fixed claims of `Manager.Generate` (token.go:88-94); the clock
reading `now` and the fresh `xid` are parameters of the embedding, and
`exp = now + 24100h` in seconds. -/
def coreClaims (now : Int) (subject jti : String) : List (String × ClaimVal) :=
  [("exp", ClaimVal.int (now + 24100 * 3600)),
   ("iss", ClaimVal.str "au/webstrates"),
   ("iat", ClaimVal.int now),
   ("sub", ClaimVal.str subject),
   ("jti", ClaimVal.str jti),
   ("app", ClaimVal.str "golem-herder")]

/-- `Manager.Generate` (token.go:86-109) restricted to the claim set of
the signed token: the caller's claims overridden by the core claims
(RS512 signing itself is external). -/
def Generate (now : Int) (jti subject : String)
    (claims : List (String × ClaimVal)) : List (String × ClaimVal) :=
  (coreClaims now subject jti).foldl (fun cs kv => putA kv.1 kv.2 cs) claims

/-- Decimal digit value of a character, `none` outside `'0'..'9'`. -/
def digitVal (c : Char) : Option Nat :=
  if '0' ≤ c ∧ c ≤ '9' then some (c.toNat - '0'.toNat) else none

/-- Accumulate decimal digits; fail at the first non-digit. -/
def parseDigits (acc : Nat) : List Char → Option Nat
  | [] => some acc
  | c :: cs =>
    match digitVal c with
    | some d => parseDigits (acc * 10 + d) cs
    | none => none

/-- Model of Go `strconv.Atoi`: an optional sign followed by at least one
decimal digit and nothing else (64-bit range errors are elided; every
string they reject parses here instead, which no claim below relies on). -/
def atoi (s : String) : Option Int :=
  match s.data with
  | [] => none
  | '+' :: cs => if cs.isEmpty then none else (parseDigits 0 cs).map Int.ofNat
  | '-' :: cs => if cs.isEmpty then none else (parseDigits 0 cs).map (fun n => -(n : Int))
  | cs => (parseDigits 0 cs).map Int.ofNat

/-- `emailFromQueryParam` (token.go:129-135); `q` is `r.URL.Query().Get`,
which yields `""` for an absent parameter. -/
def emailFromQueryParam (q : String → String) : String × Bool :=
  if q "email" ≠ "" then (q "email", true) else ("", false)

/-- `creditsFromQueryParam` (token.go:137-146): a non-empty parameter that
`strconv.Atoi` accepts, and `(0, false)` otherwise. -/
def creditsFromQueryParam (q : String → String) : Int × Bool :=
  if q "credits" ≠ "" then
    match atoi (q "credits") with
    | some credits => (credits, true)
    | none => (0, false)
  else (0, false)

/-- A successful reply of the generation endpoint: the signed token's
claim set (signing is external) together with the `email` and `credits`
fields of the `TokenReply` JSON (token.go:174-178, 208). -/
structure GenerateReply where
  claims : List (String × ClaimVal)
  email : String
  credits : Int
deriving Repr, DecidableEq

/-- `GenerateHandler` (token.go:181-216): refuse with 405 when no token
password is configured and with 401 on password mismatch; default `email`
to `"none"` when absent and `credits` to `3e4` when absent or
unparseable; issue a token over claims `crd = credits`. -/
def GenerateHandler (tokenPassword : String) (q : String → String)
    (now : Int) (jti : String) : Except (String × Nat) GenerateReply :=
  if tokenPassword = "" then Except.error ("No token password set", 405)
  else if q "password" ≠ tokenPassword then Except.error ("Invalid password", 401)
  else
    let email := match emailFromQueryParam q with
      | (e, true) => e
      | (_, false) => "none"
    let credits := match creditsFromQueryParam q with
      | (c, true) => c
      | (_, false) => 30000
    Except.ok ⟨Generate now jti email [("crd", ClaimVal.int credits)], email, credits⟩

end Token

namespace Daemon

open Herder

/-- The view of `docker.APIContainers` the daemon endpoints consume:
engine id, names (each stored by the engine with a leading `/`), and
labels. -/
structure DockerContainer where
  id : String
  names : List String
  labels : List (String × String)
deriving Repr, DecidableEq

/-- `container.WithLabel(label, value)`: the container carries the label
with exactly that value. -/
def WithLabel (label value : String) (c : DockerContainer) : Bool :=
  match lookupA label c.labels with
  | some labelValue => value = labelValue
  | none => false

/-- `container.WithName(name)`: one of the container's names equals
`/<name>`. -/
def WithName (name : String) (c : DockerContainer) : Bool :=
  c.names.contains ("/" ++ name)

/-- `container.List(client, matches, ...)`: the engine's container list
filtered by the predicate (the engine RPC is external; `world` stands for
its reply; the source calls the predicate `matches`, a Lean keyword). -/
def listContainers (world : List DockerContainer)
    (pred : DockerContainer → Bool) : List DockerContainer :=
  world.filter pred

/-- The unique container name composed by `daemon.Spawn` (daemon.go:56):
`fmt.Sprintf("%s-%v", name, claims["jti"])`. -/
def composeName (name jti : String) : String := name ++ "-" ++ jti

/-- `daemon.Attach` (daemon.go:107-123): list the containers labelled
`subject=<claims.sub>`, fail when there are none, and bridge stdio to the
first one (`cs[0]`); the requested `name` occurs only in the error
text. -/
def Attach (sub name : String) (world : List DockerContainer) :
    Except String DockerContainer :=
  match listContainers world (WithLabel "subject" sub) with
  | [] => Except.error ("Could not find container with name: " ++ name)
  | c :: _ => Except.ok c

end Daemon

/-! ## Theorems -/

namespace Herder

theorem lookupA_putA_self {α : Type} (k : String) (v : α) (l : List (String × α)) :
    lookupA k (putA k v l) = some v := by
  induction l with
  | nil => simp [putA, lookupA]
  | cons p rest ih =>
    obtain ⟨k', v'⟩ := p
    by_cases h : k' = k
    · simp [putA, h, lookupA]
    · simp [putA, h, lookupA, ih]

theorem lookupA_putA_ne {α : Type} {k k' : String} (h : k' ≠ k) (v : α)
    (l : List (String × α)) : lookupA k (putA k' v l) = lookupA k l := by
  induction l with
  | nil => simp [putA, lookupA, h]
  | cons p rest ih =>
    obtain ⟨k'', v''⟩ := p
    by_cases h2 : k'' = k'
    · subst h2
      simp [putA, lookupA, h, ih]
    · simp [putA, h2, lookupA, ih]

theorem lookupA_none_countKey {α : Type} {k : String} {l : List (String × α)}
    (h : lookupA k l = none) : countKey k l = 0 := by
  induction l with
  | nil => simp [countKey]
  | cons p rest ih =>
    obtain ⟨k', v'⟩ := p
    by_cases h2 : k' = k
    · simp [lookupA, h2] at h
    · simp [lookupA, h2] at h
      simpa [countKey, h2] using ih h

theorem putA_of_lookup_none {α : Type} {k : String} {l : List (String × α)}
    (h : lookupA k l = none) (v : α) : putA k v l = l ++ [(k, v)] := by
  induction l with
  | nil => rfl
  | cons p rest ih =>
    obtain ⟨k', v'⟩ := p
    by_cases h2 : k' = k
    · simp [lookupA, h2] at h
    · simp [lookupA, h2] at h
      simp [putA, h2, ih h]

theorem countKey_append {α : Type} (w : String) (l₁ l₂ : List (String × α)) :
    countKey w (l₁ ++ l₂) = countKey w l₁ + countKey w l₂ := by
  simp [countKey, List.filter_append]

theorem countKey_delA_self {α : Type} (k : String) (l : List (String × α)) :
    countKey k (delA k l) = 0 := by
  induction l with
  | nil => rfl
  | cons p rest ih =>
    by_cases h : p.1 = k
    · simp [countKey, delA, List.filter_cons, h]
    · simp [countKey, delA, List.filter_cons, h]

theorem countKey_delA_le {α : Type} (w k : String) (l : List (String × α)) :
    countKey w (delA k l) ≤ countKey w l := by
  exact ((List.filter_sublist l).filter _).length_le

end Herder

namespace Metering

open Herder

theorem NewMeter_of_token_seen {id token : String} (e c : Int) {st : Store}
    {b : Bucket} (hb : lookupA id st = some b) {x : Int}
    (ht : lookupA token b.tokens = some x) :
    NewMeter id token e c st = st := by
  simp [NewMeter, hb, ht]

theorem lookupA_NewMeter_token_seen (id token : String) (e c : Int) (st : Store) :
    ∃ b', lookupA id (NewMeter id token e c st) = some b' ∧
      (lookupA token b'.tokens).isSome := by
  cases h1 : lookupA id st with
  | some b =>
    cases h2 : lookupA token b.tokens with
    | some x =>
      exact ⟨b, by simp [NewMeter, h1, h2], by simp [h2]⟩
    | none =>
      refine ⟨⟨some (match b.credits with
        | some balance => balance + c
        | none => c), putA token e b.tokens⟩, ?_, ?_⟩
      · simp [NewMeter, h1, h2, lookupA_putA_self]
      · simp [lookupA_putA_self]
  | none =>
    refine ⟨⟨some c, putA token e []⟩, ?_, ?_⟩
    · simp only [NewMeter, h1, lookupA_putA_self, Option.getD_some]
      simp [show lookupA token ([] : List (String × Int)) = none from rfl,
        lookupA_putA_self]
    · simp [lookupA_putA_self]

end Metering

/-- C1: top-ups are idempotent per token id — for every subject `id`,
token id `token`, expiry `e` and credit amount `c`, a second
`metering.NewMeter(id, token, e, c)` leaves the whole store, and with it
the subject's `Credits` balance, exactly as the first call left it,
because `token` is already present in the subject's `Tokens` bucket. -/
theorem c1_topup_idempotent_per_token (id token : String) (e c : Int)
    (st : Metering.Store) :
    Metering.Credits id
        (Metering.NewMeter id token e c (Metering.NewMeter id token e c st)) =
      Metering.Credits id (Metering.NewMeter id token e c st) ∧
    Metering.NewMeter id token e c (Metering.NewMeter id token e c st) =
      Metering.NewMeter id token e c st := by
  obtain ⟨b', hb', ht'⟩ := Metering.lookupA_NewMeter_token_seen id token e c st
  obtain ⟨x, hx⟩ := Option.isSome_iff_exists.mp ht'
  have h := Metering.NewMeter_of_token_seen e c hb' hx
  exact ⟨by rw [h], h⟩

/-- C3: for a subject whose bucket holds balance `b` (what `Credits`
reads, `0` when the key is unset), the debit `Meter.Record(c)` fails with
the no-credits error exactly when `b ≤ 0` — and, the failing transaction
writing nothing, the store is unchanged on failure — while on success the
stored balance becomes `b − c`, which may go negative in this single step
when `c` exceeds `b`. -/
theorem c3_record_no_credits_iff (id : String) (c : Int) (st : Metering.Store)
    (b : Metering.Bucket) (hb : Herder.lookupA id st = some b) :
    Metering.Credits id st = Except.ok (b.credits.getD 0) ∧
    (Metering.Record id c st =
        Except.error "Could not record time - no credits left" ↔
      b.credits.getD 0 ≤ 0) ∧
    (0 < b.credits.getD 0 →
      ∃ st', Metering.Record id c st = Except.ok st' ∧
        Metering.Credits id st' = Except.ok (b.credits.getD 0 - c)) := by
  refine ⟨?_, ?_, ?_⟩
  · simp [Metering.Credits, Metering.readIntegers, hb]
  · by_cases hbal : b.credits.getD 0 ≤ 0
    · simp [Metering.Record, hb, hbal]
    · simp [Metering.Record, hb, hbal]
  · intro hpos
    have hbal : ¬ b.credits.getD 0 ≤ 0 := by omega
    refine ⟨Herder.putA id { b with credits := some (b.credits.getD 0 - c) } st,
      ?_, ?_⟩
    · simp [Metering.Record, hb, hbal]
    · simp [Metering.Credits, Metering.readIntegers, Herder.lookupA_putA_self]

/-- Witness for C3 at the store `[("alice", ⟨some 5, []⟩)]` and debit 7. -/
theorem c3_record_no_credits_iff_witness :
    Herder.lookupA "alice" [("alice", Metering.Bucket.mk (some 5) [])] =
        some (Metering.Bucket.mk (some 5) []) ∧
      (Metering.Credits "alice" [("alice", Metering.Bucket.mk (some 5) [])] =
          Except.ok ((Metering.Bucket.mk (some 5) []).credits.getD 0) ∧
      (Metering.Record "alice" 7 [("alice", Metering.Bucket.mk (some 5) [])] =
          Except.error "Could not record time - no credits left" ↔
        (Metering.Bucket.mk (some 5) []).credits.getD 0 ≤ 0) ∧
      (0 < (Metering.Bucket.mk (some 5) []).credits.getD 0 →
        ∃ st', Metering.Record "alice" 7
            [("alice", Metering.Bucket.mk (some 5) [])] = Except.ok st' ∧
          Metering.Credits "alice" st' =
            Except.ok ((Metering.Bucket.mk (some 5) []).credits.getD 0 - 7))) :=
  ⟨by decide, c3_record_no_credits_iff "alice" 7 _ _ (by decide)⟩

/-- C5 counterexample: on the empty store — where the subject's bucket is
absent — `Meter.Credits()` fails with the bucket-not-found error rather
than returning `0` as the claim states. -/
theorem c5_credits_absent_counterexample :
    Metering.Credits "alice" ([] : Metering.Store) =
        Except.error "Could not find bucket" ∧
      Metering.Credits "alice" ([] : Metering.Store) ≠ Except.ok 0 := by
  exact ⟨rfl, by simp [Metering.Credits, Metering.readIntegers, Herder.lookupA]⟩

/-- C5 (amended): for a subject whose bucket is absent the credits query
fails with the `Could not find bucket` error; for an existing bucket it
returns the stored integer balance, `0` when the `Credits` key is yet
unset. -/
theorem c5_credits_query (id : String) (st : Metering.Store) :
    (Herder.lookupA id st = none →
      Metering.Credits id st = Except.error "Could not find bucket") ∧
    (∀ b, Herder.lookupA id st = some b →
      Metering.Credits id st = Except.ok (b.credits.getD 0)) := by
  constructor
  · intro h
    simp [Metering.Credits, Metering.readIntegers, h]
  · intro b h
    simp [Metering.Credits, Metering.readIntegers, h]

/-- Witness for C5 on a one-bucket store and on a missing subject. -/
theorem c5_credits_query_witness :
    Metering.Credits "alice" [("alice", Metering.Bucket.mk (some 3) [])] =
        Except.ok ((Metering.Bucket.mk (some 3) []).credits.getD 0) ∧
      Metering.Credits "bob" [("alice", Metering.Bucket.mk (some 3) [])] =
        Except.error "Could not find bucket" :=
  ⟨(c5_credits_query "alice" _).2 _ (by decide),
    (c5_credits_query "bob" _).1 (by decide)⟩

namespace Minion

open Herder

theorem countKey_singleton (w k : String) (s : Nat) :
    countKey w [(k, s)] = if k = w then 1 else 0 := by
  by_cases h : k = w <;> simp [countKey, h]

theorem brokerStep_preserves {reg : GolemRegistry}
    (h : ∀ w, countKey w reg ≤ 1) (e : BrokerEvent) :
    ∀ w, countKey w (brokerStep reg e) ≤ 1 := by
  intro w
  cases e with
  | connect w' s =>
    simp only [brokerStep, golemConnect]
    cases hl : lookupA w' reg with
    | some g => exact h w
    | none =>
      rw [putA_of_lookup_none hl, countKey_append, countKey_singleton]
      by_cases hw : w' = w
      · subst hw
        rw [lookupA_none_countKey hl]
        simp
      · have := h w
        simp [hw]
        omega
  | disconnect w' =>
    simp only [brokerStep]
    by_cases hw : w' = w
    · subst hw
      rw [countKey_delA_self]
      omega
    · exact le_trans (countKey_delA_le w w' reg) (h w)

theorem runBroker_aux (es : List BrokerEvent) :
    ∀ reg : GolemRegistry, (∀ w, countKey w reg ≤ 1) →
      ∀ w, countKey w (es.foldl brokerStep reg) ≤ 1 := by
  induction es with
  | nil => intro reg h w; exact h w
  | cons e rest ih =>
    intro reg h w
    exact ih (brokerStep reg e) (brokerStep_preserves h e) w

end Minion

/-- C2: at most one golem socket per webstrate id — a connect attempt for
`w` while `golems[w]` is populated is answered with 409 Conflict and
leaves the registry untouched; a connect on a free `w` registers the new
socket; and along every sequence of connect/disconnect events starting
from the empty broker, each webstrate id holds at most one registration. -/
theorem c2_single_golem_per_wsid :
    (∀ (w : String) (sock : Nat) (reg : Minion.GolemRegistry) (g : Nat),
      Herder.lookupA w reg = some g →
        Minion.golemConnect w sock reg = (Minion.ConnectResult.conflict409, reg)) ∧
    (∀ (w : String) (sock : Nat) (reg : Minion.GolemRegistry),
      Herder.lookupA w reg = none →
        (Minion.golemConnect w sock reg).1 = Minion.ConnectResult.registered ∧
          Herder.lookupA w (Minion.golemConnect w sock reg).2 = some sock) ∧
    (∀ (es : List Minion.BrokerEvent) (w : String),
      Herder.countKey w (Minion.runBroker es) ≤ 1) := by
  refine ⟨?_, ?_, ?_⟩
  · intro w sock reg g hl
    simp [Minion.golemConnect, hl]
  · intro w sock reg hl
    constructor
    · simp [Minion.golemConnect, hl]
    · simp [Minion.golemConnect, hl, Herder.lookupA_putA_self]
  · intro es w
    exact Minion.runBroker_aux es [] (fun w' => by simp [Herder.countKey]) w

/-- Witness for C2: a second connect on the occupied id `"x"` is refused
and changes nothing; a connect on the free broker registers. -/
theorem c2_single_golem_per_wsid_witness :
    Minion.golemConnect "x" 2 [("x", 1)] =
        (Minion.ConnectResult.conflict409, [("x", 1)]) ∧
      ((Minion.golemConnect "x" 2 []).1 = Minion.ConnectResult.registered ∧
        Herder.lookupA "x" (Minion.golemConnect "x" 2 []).2 = some 2) :=
  ⟨c2_single_golem_per_wsid.1 "x" 2 [("x", 1)] 1 (by decide),
    c2_single_golem_per_wsid.2.1 "x" 2 [] (by decide)⟩

/-- C4: the minion handler does poll `golems[w]` up to 100 times with a
200 ms pause, and on giving up it reports 404 and closes the socket (the
deferred cleanup then removes the session) — but it never sends the
`golem-not-found` frame: the source's `err != nil` guard on the marshal
result writes the frame only when `json.Marshal` failed, which for a
`ConnectEvent` it never does.  Evaluated at a webstrate `"y"` whose
schedule never produces a golem. -/
theorem c4_golem_not_found_frame_never_sent :
    Minion.pollForGolem (fun _ => none) = none ∧
    Minion.pollIntervalMs = 200 ∧
    Minion.golemNotFoundActions "y" =
      [Minion.SocketAction.httpError "No golem found" 404,
        Minion.SocketAction.close] ∧
    ∀ (w payload : String),
      Minion.SocketAction.writeText payload ∉ Minion.golemNotFoundActions w := by
  refine ⟨rfl, rfl, rfl, ?_⟩
  intro w payload
  simp [Minion.golemNotFoundActions, Minion.jsonMarshalConnectEvent]

/-- C6 counterexample: a subject owning a single container named
`other-abc` can attach under the unrelated name `svc` — `daemon.Attach`
bridges to a container that is *not* named `svc`, refuting that the
resolved container is both subject-owned and named as requested. -/
theorem c6_attach_name_ignored_counterexample :
    Daemon.Attach "alice" "svc"
        [Daemon.DockerContainer.mk "c1" ["/other-abc"] [("subject", "alice")]] =
      Except.ok
        (Daemon.DockerContainer.mk "c1" ["/other-abc"] [("subject", "alice")]) ∧
    Daemon.WithName "svc"
        (Daemon.DockerContainer.mk "c1" ["/other-abc"] [("subject", "alice")]) =
      false :=
  ⟨rfl, rfl⟩

/-- C6 (amended): `daemon.Attach` resolves the first container carrying
label `subject=<claims.sub>` regardless of its name — the requested name
appears only in the error text — and fails exactly when the subject owns
no listed container at all. -/
theorem c6_attach_resolves_by_subject_only (sub name : String)
    (world : List Daemon.DockerContainer) :
    (Daemon.Attach sub name world =
        Except.error ("Could not find container with name: " ++ name) ↔
      ∀ c ∈ world, Daemon.WithLabel "subject" sub c = false) ∧
    (∀ c, Daemon.Attach sub name world = Except.ok c →
      Daemon.WithLabel "subject" sub c = true ∧ c ∈ world) := by
  have hfe : ∀ x ∈ world.filter (Daemon.WithLabel "subject" sub),
      Daemon.WithLabel "subject" sub x = true ∧ x ∈ world := by
    intro x hx
    exact ⟨(List.mem_filter.mp hx).2, (List.mem_filter.mp hx).1⟩
  cases hf : world.filter (Daemon.WithLabel "subject" sub) with
  | nil =>
    constructor
    · constructor
      · intro _ c hc
        have h0 := List.filter_eq_nil_iff.mp hf c hc
        simpa using h0
      · intro _
        simp [Daemon.Attach, Daemon.listContainers, hf]
    · intro c hc
      simp [Daemon.Attach, Daemon.listContainers, hf] at hc
  | cons c0 rest =>
    have hc0 : c0 ∈ world.filter (Daemon.WithLabel "subject" sub) := by
      rw [hf]; exact List.mem_cons_self _ _
    constructor
    · constructor
      · intro h
        simp [Daemon.Attach, Daemon.listContainers, hf] at h
      · intro hall
        obtain ⟨hp, hw⟩ := hfe c0 hc0
        rw [hall c0 hw] at hp
        exact absurd hp (by simp)
    · intro c hc
      have hcc : c0 = c := by
        simpa [Daemon.Attach, Daemon.listContainers, hf] using hc
      rw [← hcc]
      exact hfe c0 hc0

/-- Witness for C6: the empty engine world makes attach fail; a
subject-owned container is resolved and is a member of the world. -/
theorem c6_attach_resolves_by_subject_only_witness :
    Daemon.Attach "alice" "svc" ([] : List Daemon.DockerContainer) =
        Except.error ("Could not find container with name: " ++ "svc") ∧
      (Daemon.WithLabel "subject" "alice"
          (Daemon.DockerContainer.mk "c1" ["/other-abc"] [("subject", "alice")]) =
            true ∧
        Daemon.DockerContainer.mk "c1" ["/other-abc"] [("subject", "alice")] ∈
          [Daemon.DockerContainer.mk "c1" ["/other-abc"] [("subject", "alice")]]) :=
  ⟨(c6_attach_resolves_by_subject_only "alice" "svc" []).1.mpr (by simp),
    (c6_attach_resolves_by_subject_only "alice" "svc"
        [Daemon.DockerContainer.mk "c1" ["/other-abc"] [("subject", "alice")]]).2
      _ rfl⟩

/-- C7: `Manager.Validate` answers any token whose declared signing method
lies outside the RSA family with the `Invalid token` error and no parsed
token; it hands back a token — necessarily the parsed one — exactly when
the method is RSA, the signature verifies under the configured public key
and the claims are internally valid. -/
theorem c7_validate_rejects_non_rsa (pub : Nat) (tok : Token.TokenData) :
    (tok.method ≠ Token.MethodFamily.RSA →
      Token.Validate pub tok = (none, some "Invalid token")) ∧
    ((Token.Validate pub tok).1.isSome ↔
      tok.method = Token.MethodFamily.RSA ∧ tok.sigOkUnder pub = true ∧
        tok.claimsValid = true) ∧
    (∀ t, (Token.Validate pub tok).1 = some t → t = tok) := by
  cases hm : tok.method with
  | RSA =>
    by_cases hs : tok.sigOkUnder pub = true <;>
      by_cases hc : tok.claimsValid = true <;>
      refine ⟨fun h => absurd rfl (hm ▸ h), ?_, ?_⟩ <;>
      simp_all [Token.Validate, Token.jwtParseWithClaims, hm, hs, hc]
  | HMAC =>
    exact ⟨fun _ => by simp [Token.Validate, Token.jwtParseWithClaims, hm],
      by simp [Token.Validate, Token.jwtParseWithClaims, hm],
      by simp [Token.Validate, Token.jwtParseWithClaims, hm]⟩
  | ECDSA =>
    exact ⟨fun _ => by simp [Token.Validate, Token.jwtParseWithClaims, hm],
      by simp [Token.Validate, Token.jwtParseWithClaims, hm],
      by simp [Token.Validate, Token.jwtParseWithClaims, hm]⟩
  | RSAPSS =>
    exact ⟨fun _ => by simp [Token.Validate, Token.jwtParseWithClaims, hm],
      by simp [Token.Validate, Token.jwtParseWithClaims, hm],
      by simp [Token.Validate, Token.jwtParseWithClaims, hm]⟩
  | noSig =>
    exact ⟨fun _ => by simp [Token.Validate, Token.jwtParseWithClaims, hm],
      by simp [Token.Validate, Token.jwtParseWithClaims, hm],
      by simp [Token.Validate, Token.jwtParseWithClaims, hm]⟩

/-- Witness for C7: an HMAC-signed token is refused outright; a valid
RSA-signed token comes back as parsed. -/
theorem c7_validate_rejects_non_rsa_witness :
    Token.Validate 0 ⟨Token.MethodFamily.HMAC, fun _ => true, true⟩ =
        (none, some "Invalid token") ∧
      ((Token.Validate 0
          ⟨Token.MethodFamily.RSA, fun _ => true, true⟩).1.isSome ↔
        Token.MethodFamily.RSA = Token.MethodFamily.RSA ∧
          (fun (_ : Nat) => true) 0 = true ∧ true = true) :=
  ⟨(c7_validate_rejects_non_rsa 0 _).1 (by decide),
    (c7_validate_rejects_non_rsa 0
      ⟨Token.MethodFamily.RSA, fun _ => true, true⟩).2.1⟩

/-- C8: when `output` is empty or `"stdout"` a lambda invocation returns
the JSON `defaultOutput` of stdout/stderr typed `application/json`;
otherwise it returns the bytes of `<tmpdir>/<output>` typed by the file's
extension, falling back to the JSON form and `application/json` when that
file cannot be read. -/
theorem c8_spawn_output_selection (dir output stdout stderr : String)
    (readFile : String → Except String String) (mimeOf : String → String) :
    ((output = "" ∨ output = "stdout") →
      Minion.spawnResult dir output stdout stderr readFile mimeOf =
        (Minion.defaultOutput stdout stderr, "application/json")) ∧
    (output ≠ "" → output ≠ "stdout" →
      (∀ content, readFile (Minion.filepathJoin dir output) = Except.ok content →
        Minion.spawnResult dir output stdout stderr readFile mimeOf =
          (content, mimeOf (Minion.filepathExt (Minion.filepathJoin dir output)))) ∧
      (∀ e, readFile (Minion.filepathJoin dir output) = Except.error e →
        Minion.spawnResult dir output stdout stderr readFile mimeOf =
          (Minion.defaultOutput stdout stderr, "application/json"))) := by
  constructor
  · intro h
    simp [Minion.spawnResult, h]
  · intro h1 h2
    have hno : ¬ (output = "" ∨ output = "stdout") := by
      intro h
      cases h with
      | inl h => exact h1 h
      | inr h => exact h2 h
    constructor
    · intro content hr
      simp [Minion.spawnResult, hno, hr]
    · intro e hr
      simp [Minion.spawnResult, hno, hr]

/-- Witness for C8: a `"stdout"` invocation yields the JSON form; an
`output = "res.txt"` invocation on a readable file yields its bytes with
the `.txt`-derived MIME type. -/
theorem c8_spawn_output_selection_witness :
    Minion.spawnResult "/tmp/minion-1" "stdout" "hi" "" (fun _ => Except.error "nf")
        (fun _ => "") = (Minion.defaultOutput "hi" "", "application/json") ∧
      Minion.spawnResult "/tmp/minion-1" "res.txt" "hi" ""
          (fun p => if p = "/tmp/minion-1/res.txt" then Except.ok "data"
            else Except.error "nf")
          (fun e => if e = ".txt" then "text/plain" else "") =
        ("data", "text/plain") :=
  ⟨(c8_spawn_output_selection "/tmp/minion-1" "stdout" "hi" "" _ _).1 (Or.inr rfl),
    ((c8_spawn_output_selection "/tmp/minion-1" "res.txt" "hi" "" _ _).2
      (by decide) (by decide)).1 "data" rfl⟩

namespace Daemon

theorem sep_append_inj {α : Type} (x : α) :
    ∀ (as cs bs ds : List α), x ∉ bs → x ∉ ds →
      as ++ x :: bs = cs ++ x :: ds → as = cs ∧ bs = ds := by
  intro as
  induction as with
  | nil =>
    intro cs bs ds hb hd h
    cases cs with
    | nil =>
      simp only [List.nil_append, List.cons.injEq] at h
      exact ⟨rfl, h.2⟩
    | cons c cs' =>
      simp only [List.nil_append, List.cons_append, List.cons.injEq] at h
      exact absurd (h.2 ▸ List.mem_append_right cs' (List.mem_cons_self x ds)) hb
  | cons a as' ih =>
    intro cs bs ds hb hd h
    cases cs with
    | nil =>
      simp only [List.nil_append, List.cons_append, List.cons.injEq] at h
      exact absurd (h.2 ▸ List.mem_append_right as' (List.mem_cons_self x bs)) hd
    | cons c cs' =>
      simp only [List.cons_append, List.cons.injEq] at h
      obtain ⟨h1, h2⟩ := ih cs' bs ds hb hd h.2
      exact ⟨by rw [h.1, h1], h2⟩

end Daemon

/-- C9 counterexample: the composed names of the spawns
`(name "a-b", jti "c")` and `(name "a", jti "b-c")` coincide although the
pairs differ, refuting that a daemon's container name determines the
`(user-name, token-jti)` pair for arbitrary strings. -/
theorem c9_compose_name_counterexample :
    Daemon.composeName "a-b" "c" = Daemon.composeName "a" "b-c" ∧
      ¬ (("a-b" : String) = "a" ∧ ("c" : String) = "b-c") := by
  constructor
  · rfl
  · decide

/-- C9 (amended): as long as the token ids contain no dash — which holds
for every `jti` this herder issues, `xid` strings being drawn from
`[0-9a-v]` — the composed container name `<name>-<jti>` does determine
the pair: equal names force equal components. -/
theorem c9_compose_name_inj_dashfree_jti (n1 n2 j1 j2 : String)
    (hj1 : '-' ∉ j1.data) (hj2 : '-' ∉ j2.data)
    (h : Daemon.composeName n1 j1 = Daemon.composeName n2 j2) :
    n1 = n2 ∧ j1 = j2 := by
  have hdash : ("-" : String).data = ['-'] := rfl
  have hd : n1.data ++ '-' :: j1.data = n2.data ++ '-' :: j2.data := by
    have hc := congrArg String.data h
    simpa [Daemon.composeName, String.data_append, hdash] using hc
  obtain ⟨ha, hb⟩ := Daemon.sep_append_inj '-' n1.data n2.data j1.data j2.data hj1 hj2 hd
  exact ⟨String.ext ha, String.ext hb⟩

/-- Witness for C9 on the dash-free xid-style jti `"abc123"`. -/
theorem c9_compose_name_inj_dashfree_jti_witness :
    ("svc" : String) = "svc" ∧ ("abc123" : String) = "abc123" :=
  c9_compose_name_inj_dashfree_jti "svc" "svc" "abc123" "abc123"
    (by decide) (by decide) rfl

/-- C10: with the correct shared-secret password, the generation endpoint
answers OK, and: an absent or unparseable `credits` query parameter makes
both the issued token's `crd` claim and the reply's credits field equal
30000, while an absent `email` parameter makes the token's subject claim
and the reply's email field equal `"none"`. -/
theorem c10_generate_handler_defaults (tokenPassword : String)
    (q : String → String) (now : Int) (jti : String)
    (hp : tokenPassword ≠ "") (hq : q "password" = tokenPassword) :
    ∃ r, Token.GenerateHandler tokenPassword q now jti = Except.ok r ∧
      ((q "credits" = "" ∨ Token.atoi (q "credits") = none) →
        r.credits = 30000 ∧
          Herder.lookupA "crd" r.claims = some (Token.ClaimVal.int 30000)) ∧
      (q "email" = "" →
        r.email = "none" ∧
          Herder.lookupA "sub" r.claims = some (Token.ClaimVal.str "none")) := by
  unfold Token.GenerateHandler
  rw [if_neg hp, if_neg (by simp [hq])]
  refine ⟨_, rfl, ?_, ?_⟩
  · intro hc
    have hcred : Token.creditsFromQueryParam q = (0, false) := by
      cases hc with
      | inl h0 => simp [Token.creditsFromQueryParam, h0]
      | inr h0 =>
        by_cases he : q "credits" = ""
        · simp [Token.creditsFromQueryParam, he]
        · simp [Token.creditsFromQueryParam, he, h0]
    rw [hcred]
    exact ⟨rfl, rfl⟩
  · intro he
    have hemail : Token.emailFromQueryParam q = ("", false) := by
      simp [Token.emailFromQueryParam, he]
    rw [hemail]
    exact ⟨rfl, rfl⟩

/-- Witness for C10 on a request carrying only the correct password. -/
theorem c10_generate_handler_defaults_witness :
    ∃ r, Token.GenerateHandler "pw"
        (fun k => if k = "password" then "pw" else "") 0 "jid" = Except.ok r ∧
      (((fun k => if k = "password" then "pw" else "") "credits" = "" ∨
          Token.atoi ((fun k => if k = "password" then "pw" else "") "credits") =
            none) →
        r.credits = 30000 ∧
          Herder.lookupA "crd" r.claims = some (Token.ClaimVal.int 30000)) ∧
      ((fun k => if k = "password" then "pw" else "") "email" = "" →
        r.email = "none" ∧
          Herder.lookupA "sub" r.claims = some (Token.ClaimVal.str "none")) :=
  c10_generate_handler_defaults "pw" (fun k => if k = "password" then "pw" else "")
    0 "jid" (by decide) rfl
